import Mathlib

/-!
# PodAutoscaler to HPA translation (`pkg/controller/podautoscaler/hpa_resources.go`)

A shallow embedding of `MakeHPA` and of the library routines it calls, followed by
theorems about the HPA it returns.

Conventions of the embedding

* Go `int32` / `int64` values are `Int`; where the Go code can overflow
  (`int64(targetValue)*1024*1024`) the wrap-around is explicit (`wrapInt64`).
* A Go pointer that may be nil (`*int32`, `*resource.Quantity`, `*PodsMetricSource`)
  is an `Option`; a Go slice is a `List` (the nil slice is `[]`).
* A Go `(value, error)` result is an `Except`.
* `klog` calls only write a log line and are left out; `MakeHPA` returns a pointer to a
  freshly allocated struct, which is never nil, so the embedding returns the struct itself.
* `float64` values are modelled exactly (sign, integer mantissa, binary exponent) and all
  arithmetic on them is exact integer arithmetic.
-/

namespace podautoscaler

/-! ## `float64` and the `math` / `strconv` / `strings` routines used by `MakeHPA` -/

/-- A `float64` value: NaN, a signed infinity, or the finite number
`(-1)^neg * mant * 2^exp`.  Every IEEE-754 binary64 value has this form (with
`mant < 2^53` and `-1074 ≤ exp ≤ 971`); the sign of zero is kept. -/
inductive Float64 where
  | NaN : Float64
  | Inf (neg : Bool) : Float64
  | finite (neg : Bool) (mant : Nat) (exp : Int) : Float64
  deriving DecidableEq, Repr

/-- The error kinds carried by `strconv.NumError`. -/
inductive NumError where
  | ErrSyntax : NumError
  | ErrRange : NumError
  deriving DecidableEq, Repr

deriving instance DecidableEq for Except

/-- The constant `math.MaxInt32`. -/
def MaxInt32 : Int := 2147483647

/-- The constant `math.MinInt32`. -/
def MinInt32 : Int := -2147483648

/-- The constant `math.MaxInt64`. -/
def MaxInt64 : Int := 9223372036854775807

/-- The constant `math.MinInt64`. -/
def MinInt64 : Int := -9223372036854775808

namespace Float64

/-- Unary minus on `float64`: flips the sign bit (NaN stays NaN). -/
def neg : Float64 → Float64
  | .NaN => .NaN
  | .Inf s => .Inf (!s)
  | .finite s m e => .finite (!s) m e

/-- The integer part and "fraction is non-zero" flag of the magnitude `mant * 2^exp`,
as `math.Modf` computes them for a non-negative finite argument. -/
def modfMag (m : Nat) (e : Int) : Nat × Bool :=
  if 0 ≤ e then (m * 2 ^ e.toNat, false)
  else (m / 2 ^ (-e).toNat, m % 2 ^ (-e).toNat ≠ 0)

/-- The real number denoted by a finite value; `none` for NaN and the infinities. -/
def toRat : Float64 → Option ℚ
  | .NaN => none
  | .Inf _ => none
  | .finite s m e => some ((if s then -1 else 1) * (m : ℚ) * (2 : ℚ) ^ e)

/-- The integer part of a finite value, truncated toward zero; `none` for NaN and the
infinities. -/
def truncInt : Float64 → Option Int
  | .NaN => none
  | .Inf _ => none
  | .finite s m e => some ((if s then -1 else 1) * ((modfMag m e).1 : Int))

end Float64

/-- Library `math.Floor`: the greatest integer value less than or equal to `x`
(`Floor(±0) = ±0`, `Floor(±Inf) = ±Inf`, `Floor(NaN) = NaN`).  For `x < 0` the library
computes `d, fract := Modf(-x); if fract != 0 then d = d + 1; return -d`, for `x ≥ 0` it
returns the integer part of `Modf(x)`. -/
def Floor : Float64 → Float64
  | .NaN => .NaN
  | .Inf s => .Inf s
  | .finite s m e =>
    if m = 0 then .finite s m e
    else if s then
      let (d, fract) := Float64.modfMag m e
      .finite true (if fract then d + 1 else d) 0
    else .finite false (Float64.modfMag m e).1 0

/-- Library `math.Ceil`: the least integer value greater than or equal to `x`, computed by the
library as `-Floor(-x)`. -/
def Ceil (x : Float64) : Float64 := (Floor x.neg).neg

/-- The Go conversion `int32(f)` of a `float64`: the fraction is discarded (truncation
toward zero).  When the truncated value does not fit in `int32`, or `f` is NaN or
infinite, the Go specification leaves the result implementation-dependent; the value
modelled is the one the amd64 conversion instruction produces, `math.MinInt32`. -/
def int32OfFloat64 (f : Float64) : Int :=
  match f.truncInt with
  | some t => if MinInt32 ≤ t ∧ t ≤ MaxInt32 then t else MinInt32
  | none => MinInt32

/-- The Go conversion `int64(f)` of a `float64`: truncation toward zero; out of range,
NaN and the infinities give `math.MinInt64` (the amd64 result, implementation-dependent
in the Go specification). -/
def int64OfFloat64 (f : Float64) : Int :=
  match f.truncInt with
  | some t => if MinInt64 ≤ t ∧ t ≤ MaxInt64 then t else MinInt64
  | none => MinInt64

/-- Two's-complement wrap-around of a mathematical integer into the `int64` range, as
Go's `int64` multiplication does on overflow. -/
def wrapInt64 (x : Int) : Int := (x + 2 ^ 63) % 2 ^ 64 - 2 ^ 63

/-- Number of binary digits of `n` (`0` for `0`), by repeated halving. -/
def bitLenAux : Nat → Nat → Nat
  | 0, _ => 0
  | fuel + 1, n => if n = 0 then 0 else bitLenAux fuel (n / 2) + 1

/-- Number of binary digits of `n`. -/
def bitLen (n : Nat) : Nat := bitLenAux n n

/-- The binary64 value nearest to the positive or zero rational `n / d` (`d > 0`), ties
to even mantissa ("IEEE754 unbiased rounding"), with sign `neg`.  A result of magnitude
`2^1024` or more, that is one whose bit length plus exponent exceeds 1024, is reported as
`ErrRange` (the library then returns an infinity together with the error); underflow
gives a denormal or zero without error. -/
def roundToFloat64 (neg : Bool) (n d : Nat) : Except NumError Float64 :=
  if n = 0 then .ok (.finite neg 0 0)
  else
    let a : Int := bitLen n
    let b : Int := bitLen d
    -- binary exponent of n / d:  2^ex ≤ n / d < 2^(ex+1)
    let ex : Int := if d * 2 ^ bitLen n ≤ n * 2 ^ bitLen d then a - b else a - b - 1
    -- exponent of the last mantissa bit: 53 bits of precision, denormals below 2^-1022
    let q : Int := max (ex - 52) (-1074)
    let num : Nat := if 0 ≤ q then n else n * 2 ^ (-q).toNat
    let den : Nat := if 0 ≤ q then d * 2 ^ q.toNat else d
    let m0 := num / den
    let r := num % den
    let m := if den < 2 * r ∨ (2 * r = den ∧ m0 % 2 = 1) then m0 + 1 else m0
    if 1024 < (bitLen m : Int) + q then .error .ErrRange
    else .ok (.finite neg m q)

/-- Strip an optional leading sign; the flag tells whether it was `-`. -/
def readSign : List Char → Bool × List Char
  | '+' :: t => (false, t)
  | '-' :: t => (true, t)
  | s => (false, s)

/-- Library `strconv.special`: the whole string is, ignoring ASCII case, an optionally signed
`inf` or `infinity`, or an unsigned `nan`. -/
def special (s : List Char) : Option Float64 :=
  let signed : Bool := match s with
    | '+' :: _ => true
    | '-' :: _ => true
    | _ => false
  let (neg, body) := readSign s
  let low := body.map Char.toLower
  if low = "inf".data ∨ low = "infinity".data then some (.Inf neg)
  else if signed = false ∧ low = "nan".data then some .NaN
  else none

/-- Value of a digit character: decimal digits, and `a`-`f` / `A`-`F` when `hex`. -/
def digitVal (hex : Bool) (c : Char) : Option Nat :=
  if '0' ≤ c ∧ c ≤ '9' then some (c.toNat - 48)
  else if hex = true ∧ 'a' ≤ c.toLower ∧ c.toLower ≤ 'f' then some (c.toLower.toNat - 87)
  else none

/-- State of the mantissa loop of `strconv.readFloat`. -/
structure Mantissa where
  /-- Digits read so far, as a number in the base. -/
  mant : Nat
  /-- Number of digits read after the point. -/
  frac : Nat
  sawdot : Bool
  sawdigits : Bool
  deriving DecidableEq, Repr

/-- The mantissa loop of `strconv.readFloat`: digits, underscores and at most one point;
returns the state and the unread rest. -/
def readMantissa (hex : Bool) : List Char → Mantissa → Mantissa × List Char
  | [], st => (st, [])
  | c :: cs, st =>
    if c = '_' then readMantissa hex cs st
    else if c = '.' then
      if st.sawdot then (st, c :: cs)
      else readMantissa hex cs { st with sawdot := true }
    else
      match digitVal hex c with
      | some v =>
        readMantissa hex cs
          { st with
            mant := st.mant * (if hex then 16 else 10) + v
            frac := if st.sawdot then st.frac + 1 else st.frac
            sawdigits := true }
      | none => (st, c :: cs)

/-- The exponent-digit loop of `strconv.readFloat`: digits and underscores, the
accumulated exponent no longer grows once it has reached 10000. -/
def readExpDigits : List Char → Nat → Nat × List Char
  | [], e => (e, [])
  | c :: cs, e =>
    if c = '_' then readExpDigits cs e
    else if '0' ≤ c ∧ c ≤ '9' then
      readExpDigits cs (if e < 10000 then e * 10 + (c.toNat - 48) else e)
    else (e, c :: cs)

/-- What `strconv.underscoreOK` remembers about the previous character. -/
inductive Saw where
  | start : Saw
  | digit : Saw
  | underscore : Saw
  | other : Saw
  deriving DecidableEq, Repr

/-- The scanning loop of `strconv.underscoreOK`. -/
def underscoreOKLoop (hex : Bool) : List Char → Saw → Bool
  | [], saw => saw ≠ .underscore
  | c :: cs, saw =>
    if ('0' ≤ c ∧ c ≤ '9') ∨ (hex = true ∧ 'a' ≤ c.toLower ∧ c.toLower ≤ 'f') then
      underscoreOKLoop hex cs .digit
    else if c = '_' then
      if saw ≠ .digit then false else underscoreOKLoop hex cs .underscore
    else if saw = .underscore then false
    else underscoreOKLoop hex cs .other

/-- Library `strconv.underscoreOK`: underscores appear only between digits or right after a base
marker. -/
def underscoreOK (s : List Char) : Bool :=
  let s1 := (readSign s).2
  match s1 with
  | '0' :: b :: t =>
    if b.toLower = 'b' ∨ b.toLower = 'o' ∨ b.toLower = 'x' then
      underscoreOKLoop (b.toLower = 'x') t .digit
    else underscoreOKLoop false s1 .start
  | _ => underscoreOKLoop false s1 .start

/-- A number read by `readFloat`: `(-1)^neg * mant * 10^exp`, or
`(-1)^neg * mant * 2^exp` when `hex`. -/
structure ReadNumber where
  neg : Bool
  hex : Bool
  mant : Nat
  exp : Int
  deriving DecidableEq, Repr

/-- Library `strconv.readFloat` on a whole string: optional sign, optional `0x`, mantissa, optional
exponent (`e` for decimal, mandatory `p` for hexadecimal).  `none` when the string is not
of that form or is not consumed entirely (`ParseFloat` turns both into `ErrSyntax`). -/
def readFloat (s : List Char) : Option ReadNumber :=
  let (neg, s1) := readSign s
  let (hex, s2) : Bool × List Char :=
    match s1 with
    | '0' :: x :: c :: t => if x.toLower = 'x' then (true, c :: t) else (false, s1)
    | _ => (false, s1)
  let (m, s3) := readMantissa hex s2 ⟨0, 0, false, false⟩
  let point : Int := if hex then 4 * (m.frac : Int) else (m.frac : Int)
  if m.sawdigits = false then none
  else if underscoreOK s = false then none
  else
    match s3 with
    | [] => if hex then none else some ⟨neg, hex, m.mant, -point⟩
    | c :: s4 =>
      if c.toLower = (if hex then 'p' else 'e') then
        let (eneg, s5) := readSign s4
        match s5 with
        | [] => none
        | d :: _ =>
          if '0' ≤ d ∧ d ≤ '9' then
            let (e, s6) := readExpDigits s5 0
            if s6 = [] then
              some ⟨neg, hex, m.mant, (if eneg then -(e : Int) else (e : Int)) - point⟩
            else none
          else none
      else none

/-- Library `strconv.ParseFloat(s, 64)`: the special values, or a decimal or hexadecimal
floating-point literal rounded to the nearest binary64 value.  `ErrSyntax` when `s` is
not well-formed, `ErrRange` when the value is too large for binary64. -/
def ParseFloat (s : String) : Except NumError Float64 :=
  match special s.data with
  | some f => .ok f
  | none =>
    match readFloat s.data with
    | none => .error .ErrSyntax
    | some r =>
      let base : Nat := if r.hex then 2 else 10
      if 0 ≤ r.exp then roundToFloat64 r.neg (r.mant * base ^ r.exp.toNat) 1
      else roundToFloat64 r.neg r.mant (base ^ (-r.exp).toNat)

/-- Library `unicode.ToLower` as far as it can produce an ASCII letter: the ASCII
capitals, and the two non-ASCII runes whose lower case is ASCII (U+0130 and the Kelvin
sign U+212A).  Every other rune is returned unchanged here; the library maps other
non-ASCII capitals to non-ASCII runes, so comparisons of the result with an ASCII string
are unaffected. -/
def unicodeToLower (c : Char) : Char :=
  if c.toNat = 0x130 then 'i'
  else if c.toNat = 0x212A then 'k'
  else c.toLower

/-- Library `strings.ToLower`: every rune mapped to its lower case. -/
def ToLower (s : String) : String := String.mk (s.data.map unicodeToLower)

/-! ## Kubernetes API types (the fields `MakeHPA` reads or writes) -/

/-- Kubernetes `schema.GroupVersion`. -/
structure GroupVersion where
  Group : String
  Version : String
  deriving DecidableEq, Repr

/-- Kubernetes `schema.GroupVersionKind`. -/
structure GroupVersionKind where
  Group : String
  Version : String
  Kind : String
  deriving DecidableEq, Repr

/-- Method `GroupVersion.WithKind`. -/
def GroupVersion.WithKind (gv : GroupVersion) (kind : String) : GroupVersionKind :=
  { Group := gv.Group, Version := gv.Version, Kind := kind }

/-- Method `GroupVersionKind.GroupVersion`. -/
def GroupVersionKind.GroupVersion (gvk : GroupVersionKind) : GroupVersion :=
  { Group := gvk.Group, Version := gvk.Version }

/-- Method `GroupVersion.String`: the version alone for the empty group, otherwise
`group/version`. -/
def GroupVersion.String (gv : GroupVersion) : String :=
  if gv.Group.length > 0 then gv.Group ++ "/" ++ gv.Version else gv.Version

/-- Kubernetes `metav1.OwnerReference`. -/
structure OwnerReference where
  APIVersion : String
  Kind : String
  Name : String
  UID : String
  Controller : Option Bool
  BlockOwnerDeletion : Option Bool
  deriving DecidableEq, Repr

/-- Kubernetes `metav1.ObjectMeta`; a `map[string]string` is an association list. -/
structure ObjectMeta where
  Name : String
  Namespace : String
  UID : String
  Labels : List (String × String)
  Annotations : List (String × String)
  OwnerReferences : List OwnerReference
  deriving DecidableEq, Repr

/-- Kubernetes `metav1.NewControllerRef`: an owner reference to `owner` of kind `gvk`
with `Controller` and `BlockOwnerDeletion` both pointing to `true`. -/
def NewControllerRef (owner : ObjectMeta) (gvk : GroupVersionKind) : OwnerReference :=
  { APIVersion := gvk.GroupVersion.String
    Kind := gvk.Kind
    Name := owner.Name
    UID := owner.UID
    BlockOwnerDeletion := some true
    Controller := some true }

/-- Kubernetes `corev1.ObjectReference`. -/
structure ObjectReference where
  Kind : String
  Namespace : String
  Name : String
  UID : String
  APIVersion : String
  deriving DecidableEq, Repr

/-- Modelled from the spec: the declaration of `pa_v1.PodAutoscalerSpec` is outside the
source file.  The spec's ScalingIntent gives the fields: `ScaleTarget` (API
group/version, kind, name), `MinReplicas` (optional integer), `MaxReplicas` (integer),
`TargetMetricName` (string) and `TargetValue` (string-encoded decimal number); the names
are those `MakeHPA` uses.  `MinReplicas` is a `*int32`, `MaxReplicas` an `int32`. -/
structure PodAutoscalerSpec where
  ScaleTargetRef : ObjectReference
  MinReplicas : Option Int
  MaxReplicas : Int
  TargetMetric : String
  TargetValue : String
  deriving DecidableEq, Repr

/-- Modelled from the spec: the declaration of `pa_v1.PodAutoscaler` is outside the
source file.  It is a Kubernetes object: object metadata (name, namespace, labels,
annotations, UID) and the spec above. -/
structure PodAutoscaler where
  ObjectMeta : ObjectMeta
  Spec : PodAutoscalerSpec
  deriving DecidableEq, Repr

/-- Modelled from the spec: the constant `pa_v1.CPU` is declared outside the source
file; the spec names the two reserved metric names, "cpu" and "memory". -/
def CPU : String := "cpu"

/-- Modelled from the spec: the constant `pa_v1.Memory` is declared outside the source
file; the spec names the two reserved metric names, "cpu" and "memory". -/
def Memory : String := "memory"

/-- Kubernetes `resource.Format`. -/
inductive Format where
  | DecimalExponent : Format
  | BinarySI : Format
  | DecimalSI : Format
  deriving DecidableEq, Repr

/-- Kubernetes `resource.Quantity` as `resource.NewQuantity` builds it: an `int64`
amount at scale 0 and a format. -/
structure Quantity where
  value : Int
  Format : Format
  deriving DecidableEq, Repr

/-- Kubernetes `resource.NewQuantity`. -/
def NewQuantity (value : Int) (format : Format) : Quantity :=
  { value := value, Format := format }

/-- Kubernetes `autoscalingv2.MetricSourceType`. -/
inductive MetricSourceType where
  | ObjectMetricSourceType : MetricSourceType
  | PodsMetricSourceType : MetricSourceType
  | ResourceMetricSourceType : MetricSourceType
  | ContainerResourceMetricSourceType : MetricSourceType
  | ExternalMetricSourceType : MetricSourceType
  deriving DecidableEq, Repr

/-- Kubernetes `autoscalingv2.MetricTargetType`. -/
inductive MetricTargetType where
  | UtilizationMetricType : MetricTargetType
  | ValueMetricType : MetricTargetType
  | AverageValueMetricType : MetricTargetType
  deriving DecidableEq, Repr

/-- Kubernetes `corev1.ResourceName`, a string type. -/
abbrev ResourceName := String

/-- The constant `corev1.ResourceCPU`. -/
def ResourceCPU : ResourceName := "cpu"

/-- The constant `corev1.ResourceMemory`. -/
def ResourceMemory : ResourceName := "memory"

/-- Kubernetes `autoscalingv2.MetricTarget`; the Go field `Type` is spelled `Type_`. -/
structure MetricTarget where
  Type_ : MetricTargetType
  Value : Option Quantity := none
  AverageValue : Option Quantity := none
  AverageUtilization : Option Int := none
  deriving DecidableEq, Repr

/-- Kubernetes `autoscalingv2.MetricIdentifier` (the selector is never set here). -/
structure MetricIdentifier where
  Name : String
  deriving DecidableEq, Repr

/-- Kubernetes `autoscalingv2.ResourceMetricSource`. -/
structure ResourceMetricSource where
  Name : ResourceName
  Target : MetricTarget
  deriving DecidableEq, Repr

/-- Kubernetes `autoscalingv2.PodsMetricSource`. -/
structure PodsMetricSource where
  Metric : MetricIdentifier
  Target : MetricTarget
  deriving DecidableEq, Repr

/-- Kubernetes `autoscalingv2.MetricSpec`; the `Object`, `ContainerResource` and
`External` pointers, which `MakeHPA` never sets, are left out; the Go field `Type` is
spelled `Type_`. -/
structure MetricSpec where
  Type_ : MetricSourceType
  Pods : Option PodsMetricSource := none
  Resource : Option ResourceMetricSource := none
  deriving DecidableEq, Repr

/-- Kubernetes `autoscalingv2.CrossVersionObjectReference`. -/
structure CrossVersionObjectReference where
  Kind : String
  Name : String
  APIVersion : String
  deriving DecidableEq, Repr

/-- Kubernetes `autoscalingv2.HorizontalPodAutoscalerSpec` (`Behavior` is never set). -/
structure HorizontalPodAutoscalerSpec where
  ScaleTargetRef : CrossVersionObjectReference
  MinReplicas : Option Int := none
  MaxReplicas : Int
  Metrics : List MetricSpec := []
  deriving DecidableEq, Repr

/-- Kubernetes `autoscalingv2.HorizontalPodAutoscaler` (the status is never set). -/
structure HorizontalPodAutoscaler where
  ObjectMeta : ObjectMeta
  Spec : HorizontalPodAutoscalerSpec
  deriving DecidableEq, Repr

/-- A `context.Context`, reduced to a deadline and its key-value pairs. -/
structure Context where
  deadline : Option Nat
  values : List (String × String)
  deriving DecidableEq, Repr

/-! ## `hpa_resources.go` -/

/-- The package variable `controllerKind`.  `pa_v1.GroupVersion` is declared outside the
source file and is a parameter. -/
def controllerKind (GroupVersion : GroupVersion) : GroupVersionKind :=
  GroupVersion.WithKind "PodAutoScaler"

/-- The function `getHPANameFromPa`: `fmt.Sprintf("%s-hpa", pa.Name)`. -/
def getHPANameFromPa (pa : PodAutoscaler) : String :=
  pa.ObjectMeta.Name ++ "-hpa"

/-- The function `MakeHPA`: creates an HPA resource from a PodAutoscaler resource.  The
context argument is not used by the body. -/
def MakeHPA (GroupVersion : GroupVersion) (pa : PodAutoscaler) (_ctx : Context) :
    HorizontalPodAutoscaler :=
  let minReplicas := pa.Spec.MinReplicas
  let maxReplicas := if pa.Spec.MaxReplicas = 0 then MaxInt32 else pa.Spec.MaxReplicas
  let hpa : HorizontalPodAutoscaler :=
    { ObjectMeta :=
        { Name := getHPANameFromPa pa
          Namespace := pa.ObjectMeta.Namespace
          UID := ""
          Labels := pa.ObjectMeta.Labels
          Annotations := pa.ObjectMeta.Annotations
          OwnerReferences := [NewControllerRef pa.ObjectMeta (controllerKind GroupVersion)] }
      Spec :=
        { ScaleTargetRef :=
            { APIVersion := pa.Spec.ScaleTargetRef.APIVersion
              Kind := pa.Spec.ScaleTargetRef.Kind
              Name := pa.Spec.ScaleTargetRef.Name }
          MaxReplicas := maxReplicas } }
  let hpa : HorizontalPodAutoscaler :=
    match minReplicas with
    | some n =>
      if n > 0 then { hpa with Spec := { hpa.Spec with MinReplicas := minReplicas } }
      else hpa
    | none => hpa
  match ParseFloat pa.Spec.TargetValue with
  | .error _ => hpa
  | .ok targetValue =>
    let metric := ToLower pa.Spec.TargetMetric
    if metric = CPU then
      let utilValue := int32OfFloat64 (Ceil targetValue)
      { hpa with
        Spec :=
          { hpa.Spec with
            Metrics :=
              [{ Type_ := .ResourceMetricSourceType
                 Resource := some
                   { Name := ResourceCPU
                     Target :=
                       { Type_ := .UtilizationMetricType
                         AverageUtilization := some utilValue } } }] } }
    else if metric = Memory then
      let memory :=
        NewQuantity (wrapInt64 (wrapInt64 (int64OfFloat64 targetValue * 1024) * 1024))
          .BinarySI
      { hpa with
        Spec :=
          { hpa.Spec with
            Metrics :=
              [{ Type_ := .ResourceMetricSourceType
                 Resource := some
                   { Name := ResourceMemory
                     Target :=
                       { Type_ := .AverageValueMetricType
                         AverageValue := some memory } } }] } }
    else
      let targetQuantity := NewQuantity (int64OfFloat64 targetValue) .DecimalSI
      { hpa with
        Spec :=
          { hpa.Spec with
            Metrics :=
              [{ Type_ := .PodsMetricSourceType
                 Pods := some
                   { Metric := { Name := pa.Spec.TargetMetric }
                     Target :=
                       { Type_ := .AverageValueMetricType
                         AverageValue := some targetQuantity } } }] } }

/-! ## Specification-level notions used in the statements -/

/-- The CPU utilisation descriptor of source lines 81-90 with target `u`. -/
def cpuMetric (u : Int) : MetricSpec :=
  { Type_ := .ResourceMetricSourceType
    Resource := some
      { Name := ResourceCPU
        Target := { Type_ := .UtilizationMetricType, AverageUtilization := some u } } }

/-- The memory descriptor of source lines 94-103 with quantity `q`. -/
def memoryMetric (q : Quantity) : MetricSpec :=
  { Type_ := .ResourceMetricSourceType
    Resource := some
      { Name := ResourceMemory
        Target := { Type_ := .AverageValueMetricType, AverageValue := some q } } }

/-- The pods descriptor of source lines 107-118 with metric name `name` and quantity
`q`. -/
def podsMetric (name : String) (q : Quantity) : MetricSpec :=
  { Type_ := .PodsMetricSourceType
    Pods := some
      { Metric := { Name := name }
        Target := { Type_ := .AverageValueMetricType, AverageValue := some q } } }

/-- The integer part of a rational, truncated toward zero. -/
def truncToZero (x : ℚ) : Int := if 0 ≤ x then ⌊x⌋ else ⌈x⌉

/-- The string `s` is `t` up to the case of its ASCII letters, position by position. -/
def IsCaseVariant (s t : String) : Prop :=
  s.data.map Char.toLower = t.data.map Char.toLower

instance (s t : String) : Decidable (IsCaseVariant s t) :=
  inferInstanceAs (Decidable (s.data.map Char.toLower = t.data.map Char.toLower))

/-- The intent `pa` with its `TargetMetric` replaced. -/
def withTargetMetric (pa : PodAutoscaler) (metric : String) : PodAutoscaler :=
  { pa with Spec := { pa.Spec with TargetMetric := metric } }

/-! ## Concrete intents used to exercise the theorems -/

/-- A group/version for the PodAutoscaler API. -/
def sampleGroupVersion : GroupVersion :=
  { Group := "autoscaling.aibrix.ai", Version := "v1alpha1" }

/-- A background context. -/
def sampleContext : Context := { deadline := none, values := [] }

/-- An intent named `web` in namespace `default` targeting the Deployment `web`, with the
given replica bounds, target metric and target value. -/
def samplePA (minReplicas : Option Int) (maxReplicas : Int) (metric value : String) :
    PodAutoscaler :=
  { ObjectMeta :=
      { Name := "web", Namespace := "default", UID := "uid-1"
        Labels := [("app", "web")], Annotations := [], OwnerReferences := [] }
    Spec :=
      { ScaleTargetRef :=
          { Kind := "Deployment", Namespace := "default", Name := "web", UID := ""
            APIVersion := "apps/v1" }
        MinReplicas := minReplicas
        MaxReplicas := maxReplicas
        TargetMetric := metric
        TargetValue := value } }

/-- The intent `samplePA none 0 "cpu" "50"` renamed to `name`. -/
def samplePANamed (name : String) : PodAutoscaler :=
  { samplePA none 0 "cpu" "50" with
    ObjectMeta := { (samplePA none 0 "cpu" "50").ObjectMeta with Name := name } }

/-! ## Projections of `MakeHPA` -/

theorem MakeHPA_Spec_MaxReplicas (gv : GroupVersion) (pa : PodAutoscaler) (ctx : Context) :
    (MakeHPA gv pa ctx).Spec.MaxReplicas
      = if pa.Spec.MaxReplicas = 0 then MaxInt32 else pa.Spec.MaxReplicas := by
  unfold MakeHPA
  cases pa.Spec.MinReplicas <;> cases ParseFloat pa.Spec.TargetValue <;> simp only [] <;>
    repeat (first | rfl | split)

theorem MakeHPA_Spec_MinReplicas (gv : GroupVersion) (pa : PodAutoscaler) (ctx : Context) :
    (MakeHPA gv pa ctx).Spec.MinReplicas
      = match pa.Spec.MinReplicas with
        | some n => if n > 0 then some n else none
        | none => none := by
  unfold MakeHPA
  cases pa.Spec.MinReplicas <;> cases ParseFloat pa.Spec.TargetValue <;> simp only [] <;>
    repeat (first | rfl | split)

theorem MakeHPA_Spec_Metrics (gv : GroupVersion) (pa : PodAutoscaler) (ctx : Context) :
    (MakeHPA gv pa ctx).Spec.Metrics
      = match ParseFloat pa.Spec.TargetValue with
        | .error _ => []
        | .ok v =>
          if ToLower pa.Spec.TargetMetric = CPU then
            [cpuMetric (int32OfFloat64 (Ceil v))]
          else if ToLower pa.Spec.TargetMetric = Memory then
            [memoryMetric
              (NewQuantity (wrapInt64 (wrapInt64 (int64OfFloat64 v * 1024) * 1024)) .BinarySI)]
          else [podsMetric pa.Spec.TargetMetric (NewQuantity (int64OfFloat64 v) .DecimalSI)] := by
  unfold MakeHPA
  cases pa.Spec.MinReplicas <;> cases ParseFloat pa.Spec.TargetValue <;> simp only [] <;>
    repeat (first | rfl | split)

theorem MakeHPA_ObjectMeta (gv : GroupVersion) (pa : PodAutoscaler) (ctx : Context) :
    (MakeHPA gv pa ctx).ObjectMeta
      = { Name := getHPANameFromPa pa
          Namespace := pa.ObjectMeta.Namespace
          UID := ""
          Labels := pa.ObjectMeta.Labels
          Annotations := pa.ObjectMeta.Annotations
          OwnerReferences := [NewControllerRef pa.ObjectMeta (controllerKind gv)] } := by
  unfold MakeHPA
  cases pa.Spec.MinReplicas <;> cases ParseFloat pa.Spec.TargetValue <;> simp only [] <;>
    repeat (first | rfl | split)

theorem MakeHPA_Spec_ScaleTargetRef (gv : GroupVersion) (pa : PodAutoscaler) (ctx : Context) :
    (MakeHPA gv pa ctx).Spec.ScaleTargetRef
      = { APIVersion := pa.Spec.ScaleTargetRef.APIVersion
          Kind := pa.Spec.ScaleTargetRef.Kind
          Name := pa.Spec.ScaleTargetRef.Name } := by
  unfold MakeHPA
  cases pa.Spec.MinReplicas <;> cases ParseFloat pa.Spec.TargetValue <;> simp only [] <;>
    repeat (first | rfl | split)

/-! ## Auxiliary facts on strings and on 64-bit wrap-around -/

/-- Appending the same suffix to two strings gives equal results only for equal strings. -/
theorem String_append_right_cancel (s t u : String) (h : s ++ u = t ++ u) : s = t := by
  have hd := congrArg String.data h
  rw [String.data_append, String.data_append] at hd
  exact String.ext (List.append_cancel_right hd)

/-- The two-step scaling of the memory branch wraps like a single multiplication by
`2^20`. -/
theorem wrapInt64_scale (t : Int) :
    wrapInt64 (wrapInt64 (t * 1024) * 1024)
      = (t * 1048576 + 9223372036854775808) % 18446744073709551616 - 9223372036854775808 := by
  unfold wrapInt64
  norm_num
  omega

/-! ## Agreement of the `float64` routines with rational arithmetic -/

theorem modfMag_fst (m : Nat) (e : Int) :
    ((Float64.modfMag m e).1 : Int) = ⌊(m : ℚ) * (2 : ℚ) ^ e⌋ := by
  unfold Float64.modfMag
  by_cases he : 0 ≤ e
  · obtain ⟨k, rfl⟩ := Int.eq_ofNat_of_zero_le he
    rw [if_pos he]
    simp only [Int.toNat_ofNat, zpow_natCast]
    have : (m : ℚ) * 2 ^ k = ((m * 2 ^ k : ℕ) : ℚ) := by push_cast; ring
    rw [this, Int.floor_natCast]
  · rw [if_neg he]
    obtain ⟨k, hk⟩ := Int.eq_ofNat_of_zero_le (show 0 ≤ -e by omega)
    have he2 : e = -(k : Int) := by omega
    subst he2
    simp only [neg_neg, Int.toNat_ofNat, zpow_neg, zpow_natCast]
    have : (m : ℚ) * ((2 : ℚ) ^ k)⁻¹ = (m : ℚ) / ((2 ^ k : ℕ) : ℚ) := by
      push_cast; rw [div_eq_mul_inv]
    rw [this, Rat.floor_natCast_div_natCast]
    norm_cast

theorem modfMag_snd (m : Nat) (e : Int) :
    (Float64.modfMag m e).2 = true ↔ ((⌊(m : ℚ) * (2 : ℚ) ^ e⌋ : Int) : ℚ) ≠ (m : ℚ) * (2 : ℚ) ^ e := by
  unfold Float64.modfMag
  by_cases he : 0 ≤ e
  · obtain ⟨k, rfl⟩ := Int.eq_ofNat_of_zero_le he
    rw [if_pos he]
    simp only [Int.toNat_ofNat, zpow_natCast]
    have : (m : ℚ) * 2 ^ k = ((m * 2 ^ k : ℕ) : ℚ) := by push_cast; ring
    rw [this, Int.floor_natCast]
    simp
  · rw [if_neg he]
    obtain ⟨k, hk⟩ := Int.eq_ofNat_of_zero_le (show 0 ≤ -e by omega)
    have he2 : e = -(k : Int) := by omega
    subst he2
    simp only [neg_neg, Int.toNat_ofNat, zpow_neg, zpow_natCast]
    have : (m : ℚ) * ((2 : ℚ) ^ k)⁻¹ = (m : ℚ) / ((2 ^ k : ℕ) : ℚ) := by
      push_cast; rw [div_eq_mul_inv]
    rw [this, Rat.floor_natCast_div_natCast]
    have hpos : (0 : ℚ) < ((2 ^ k : ℕ) : ℚ) := by positivity
    simp only [decide_eq_true_eq, ne_eq]
    rw [eq_div_iff hpos.ne']
    constructor
    · intro h1 h2
      apply h1
      have h3 : (m / 2 ^ k) * 2 ^ k = m := by exact_mod_cast h2
      have := Nat.div_add_mod m (2 ^ k)
      rw [Nat.mul_comm] at this
      omega
    · intro h1 h2
      apply h1
      have := Nat.div_add_mod m (2 ^ k)
      have h3 : (m / 2 ^ k) * 2 ^ k = m := by rw [Nat.mul_comm]; omega
      exact_mod_cast h3

theorem truncToZero_neg_of_nonneg (y : ℚ) (hy : 0 ≤ y) : truncToZero (-y) = -⌊y⌋ := by
  unfold truncToZero
  by_cases h : 0 ≤ -y
  · have : y = 0 := by linarith
    subst this
    simp
  · rw [if_neg h, Int.ceil_neg]

theorem truncToZero_of_nonneg (y : ℚ) (hy : 0 ≤ y) : truncToZero y = ⌊y⌋ := by
  unfold truncToZero
  rw [if_pos hy]

theorem truncToZero_of_floor_eq (y : ℚ) (hy : ((⌊y⌋ : Int) : ℚ) = y) :
    truncToZero y = ⌊y⌋ := by
  unfold truncToZero
  by_cases h : 0 ≤ y
  · rw [if_pos h]
  · rw [if_neg h]
    conv_lhs => rw [← hy]
    exact Int.ceil_intCast _

theorem mag_nonneg (m : Nat) (e : Int) : (0 : ℚ) ≤ (m : ℚ) * (2 : ℚ) ^ e := by positivity

/-- The integer part computed on mantissa and exponent is the value truncated toward
zero. -/
theorem truncInt_eq (v : Float64) (x : ℚ) (h : v.toRat = some x) :
    v.truncInt = some (truncToZero x) := by
  cases v with
  | NaN => simp [Float64.toRat] at h
  | Inf s => simp [Float64.toRat] at h
  | finite s m e =>
    simp only [Float64.toRat, Option.some.injEq] at h
    subst h
    simp only [Float64.truncInt, Option.some.injEq]
    rw [modfMag_fst]
    cases s
    · simp only [Bool.false_eq_true, if_false, one_mul]
      rw [truncToZero_of_nonneg _ (mag_nonneg m e)]
    · simp only [if_true]
      rw [show (-1 : ℚ) * (m : ℚ) * (2 : ℚ) ^ e = -((m : ℚ) * (2 : ℚ) ^ e) by ring,
        truncToZero_neg_of_nonneg _ (mag_nonneg m e)]
      ring

theorem ceil_eq_floor_add (y : ℚ) :
    ⌈y⌉ = if ((⌊y⌋ : Int) : ℚ) ≠ y then ⌊y⌋ + 1 else ⌊y⌋ := by
  by_cases h : ((⌊y⌋ : Int) : ℚ) = y
  · rw [if_neg (not_not.mpr h)]
    rw [← h, Int.ceil_intCast, Int.floor_intCast]
  · rw [if_pos h]
    rw [Int.ceil_eq_iff]
    constructor
    · push_cast
      have := Int.floor_le y
      have h2 : ((⌊y⌋ : Int) : ℚ) < y := lt_of_le_of_ne this h
      linarith
    · push_cast
      exact (Int.lt_floor_add_one y).le

theorem modfMag_zero (n : Nat) : Float64.modfMag n 0 = (n, false) := by
  simp [Float64.modfMag]

/-- The integer part of `Ceil v` is the ceiling of the value of `v`. -/
theorem Ceil_truncInt_eq (v : Float64) (x : ℚ) (h : v.toRat = some x) :
    (Ceil v).truncInt = some ⌈x⌉ := by
  cases v with
  | NaN => simp [Float64.toRat] at h
  | Inf s => simp [Float64.toRat] at h
  | finite s m e =>
    simp only [Float64.toRat, Option.some.injEq] at h
    subst h
    unfold Ceil
    simp only [Float64.neg, Floor]
    by_cases hm : m = 0
    · subst hm
      simp [Float64.neg, Float64.truncInt, Float64.modfMag]
    · rw [if_neg hm]
      have hf := modfMag_fst m e
      have hs := modfMag_snd m e
      generalize Float64.modfMag m e = p at hf hs ⊢
      obtain ⟨d, fr⟩ := p
      simp only at hf hs
      cases s
      · simp only [Bool.not_false, if_true, Float64.neg, Bool.not_true, Float64.truncInt,
          Bool.false_eq_true, if_false, one_mul, Option.some.injEq, modfMag_zero]
        rw [ceil_eq_floor_add, ← hf]
        rw [← hf] at hs
        by_cases hfr : fr = true
        · rw [if_pos (hs.mp hfr), if_pos hfr]
          push_cast
          rfl
        · rw [if_neg (fun hc => hfr (hs.mpr hc)), if_neg hfr]
      · simp only [Bool.not_true, Bool.false_eq_true, if_false, Float64.neg, Bool.not_false,
          Float64.truncInt, if_true, Option.some.injEq, modfMag_zero]
        rw [show (-1 : ℚ) * (m : ℚ) * (2 : ℚ) ^ e = -((m : ℚ) * (2 : ℚ) ^ e) by ring,
          Int.ceil_neg, ← hf]
        ring

theorem wrapInt64_of_inRange (y : Int) (hlo : MinInt64 ≤ y) (hhi : y ≤ MaxInt64) :
    wrapInt64 y = y := by
  unfold wrapInt64
  unfold MinInt64 at hlo
  unfold MaxInt64 at hhi
  norm_num
  omega

/-- The conversion `int32(math.Ceil(v))` is the ceiling of the value when that fits. -/
theorem int32OfFloat64_Ceil (v : Float64) (x : ℚ) (h : v.toRat = some x)
    (hlo : MinInt32 ≤ ⌈x⌉) (hhi : ⌈x⌉ ≤ MaxInt32) :
    int32OfFloat64 (Ceil v) = ⌈x⌉ := by
  unfold int32OfFloat64
  rw [Ceil_truncInt_eq v x h]
  exact if_pos ⟨hlo, hhi⟩

/-- The conversion `int64(v)` is the value truncated toward zero when that fits. -/
theorem int64OfFloat64_eq (v : Float64) (x : ℚ) (h : v.toRat = some x)
    (hlo : MinInt64 ≤ truncToZero x) (hhi : truncToZero x ≤ MaxInt64) :
    int64OfFloat64 v = truncToZero x := by
  unfold int64OfFloat64
  rw [truncInt_eq v x h]
  exact if_pos ⟨hlo, hhi⟩

/-- Lower-casing a rune whose ASCII lower case is not one of the four code points
involved in the non-ASCII cases of the table. -/
theorem unicodeToLower_of_toLower (c : Char)
    (ht : c.toLower.toNat ≠ 0x130 ∧ c.toLower.toNat ≠ 0x212A) :
    unicodeToLower c = c.toLower := by
  unfold unicodeToLower
  by_cases h1 : c.toNat = 0x130
  · exfalso
    apply ht.1
    have : c.toLower = c := by
      unfold Char.toLower
      rw [if_neg (by omega)]
    rw [this, h1]
  · rw [if_neg h1]
    by_cases h2 : c.toNat = 0x212A
    · exfalso
      apply ht.2
      have : c.toLower = c := by
        unfold Char.toLower
        rw [if_neg (by omega)]
      rw [this, h2]
    · rw [if_neg h2]

/-- A case variant of an all-ASCII string lower-cases to the lower case of that string. -/
theorem ToLower_of_IsCaseVariant (s t : String) (h : IsCaseVariant s t)
    (ht : ∀ c ∈ t.data.map Char.toLower, c.toNat ≠ 0x130 ∧ c.toNat ≠ 0x212A) :
    ToLower s = String.mk (t.data.map Char.toLower) := by
  unfold ToLower
  unfold IsCaseVariant at h
  congr 1
  rw [← h]
  apply List.map_congr_left
  intro c hc
  apply unicodeToLower_of_toLower
  apply ht
  rw [← h]
  exact List.mem_map_of_mem _ hc

theorem ToLower_cpu_of_IsCaseVariant (s : String) (h : IsCaseVariant s "cpu") :
    ToLower s = CPU := by
  rw [ToLower_of_IsCaseVariant s "cpu" h (by decide)]
  decide

theorem ToLower_memory_of_IsCaseVariant (s : String) (h : IsCaseVariant s "memory") :
    ToLower s = Memory := by
  rw [ToLower_of_IsCaseVariant s "memory" h (by decide)]
  decide

/-! ## Replica bounds -/

/-- C1: for every PodAutoscaler whose `Spec.MaxReplicas` is 0, the HPA returned by
`MakeHPA` has `Spec.MaxReplicas` equal to 2147483647 (`math.MaxInt32`), whatever the
other fields are. -/
theorem MakeHPA_maxReplicas_zero (gv : GroupVersion) (pa : PodAutoscaler) (ctx : Context)
    (h : pa.Spec.MaxReplicas = 0) :
    (MakeHPA gv pa ctx).Spec.MaxReplicas = 2147483647 := by
  rw [MakeHPA_Spec_MaxReplicas, if_pos h]
  rfl

/-- C1 at the intent with `MaxReplicas = 0`, a nil `MinReplicas` and the unparsable
target value "not-a-number": unbounded maximum, unset minimum. -/
theorem MakeHPA_maxReplicas_zero_witness :
    (samplePA none 0 "cpu" "not-a-number").Spec.MaxReplicas = 0 ∧
    (MakeHPA sampleGroupVersion (samplePA none 0 "cpu" "not-a-number")
      sampleContext).Spec.MaxReplicas = 2147483647 :=
  ⟨rfl, MakeHPA_maxReplicas_zero sampleGroupVersion (samplePA none 0 "cpu" "not-a-number")
    sampleContext rfl⟩

/-- C2: for every PodAutoscaler whose `Spec.MaxReplicas` is a value `N` different from 0
(positive or negative), the HPA returned by `MakeHPA` has `Spec.MaxReplicas` equal to `N`
unchanged. -/
theorem MakeHPA_maxReplicas_nonzero (gv : GroupVersion) (pa : PodAutoscaler) (ctx : Context)
    (N : Int) (hN : N ≠ 0) (h : pa.Spec.MaxReplicas = N) :
    (MakeHPA gv pa ctx).Spec.MaxReplicas = N := by
  rw [MakeHPA_Spec_MaxReplicas, if_neg (by rw [h]; exact hN), h]

/-- C2 at `MaxReplicas = 10` and at the negative value `MaxReplicas = -3`. -/
theorem MakeHPA_maxReplicas_nonzero_witness :
    ((10 : Int) ≠ 0 ∧
      (MakeHPA sampleGroupVersion (samplePA (some 1) 10 "cpu" "50")
        sampleContext).Spec.MaxReplicas = 10) ∧
    ((-3 : Int) ≠ 0 ∧
      (MakeHPA sampleGroupVersion (samplePA none (-3) "memory" "x")
        sampleContext).Spec.MaxReplicas = -3) :=
  ⟨⟨by decide, MakeHPA_maxReplicas_nonzero sampleGroupVersion (samplePA (some 1) 10 "cpu" "50")
      sampleContext 10 (by decide) rfl⟩,
   ⟨by decide, MakeHPA_maxReplicas_nonzero sampleGroupVersion (samplePA none (-3) "memory" "x")
      sampleContext (-3) (by decide) rfl⟩⟩

/-- C3: for every PodAutoscaler whose `Spec.MinReplicas` is nil, or points to 0, or points
to a negative value, the HPA returned by `MakeHPA` has `Spec.MinReplicas` unset (nil). -/
theorem MakeHPA_minReplicas_unset (gv : GroupVersion) (pa : PodAutoscaler) (ctx : Context)
    (h : pa.Spec.MinReplicas = none ∨ ∃ n : Int, pa.Spec.MinReplicas = some n ∧ n ≤ 0) :
    (MakeHPA gv pa ctx).Spec.MinReplicas = none := by
  rw [MakeHPA_Spec_MinReplicas]
  rcases h with h | ⟨n, h, hn⟩
  · rw [h]
  · rw [h]
    exact if_neg (not_lt.mpr hn)

/-- C3 at a nil `MinReplicas`, at `MinReplicas = 0` and at `MinReplicas = -2`. -/
theorem MakeHPA_minReplicas_unset_witness :
    (MakeHPA sampleGroupVersion (samplePA none 0 "cpu" "50")
        sampleContext).Spec.MinReplicas = none ∧
    (MakeHPA sampleGroupVersion (samplePA (some 0) 4 "cpu" "50")
        sampleContext).Spec.MinReplicas = none ∧
    (MakeHPA sampleGroupVersion (samplePA (some (-2)) 4 "cpu" "50")
        sampleContext).Spec.MinReplicas = none :=
  ⟨MakeHPA_minReplicas_unset sampleGroupVersion (samplePA none 0 "cpu" "50") sampleContext
      (Or.inl rfl),
   MakeHPA_minReplicas_unset sampleGroupVersion (samplePA (some 0) 4 "cpu" "50") sampleContext
      (Or.inr ⟨0, rfl, by decide⟩),
   MakeHPA_minReplicas_unset sampleGroupVersion (samplePA (some (-2)) 4 "cpu" "50")
      sampleContext (Or.inr ⟨-2, rfl, by decide⟩)⟩

/-- C4: for every PodAutoscaler whose `Spec.MinReplicas` is present with value `N > 0`,
the HPA returned by `MakeHPA` has `Spec.MinReplicas` present and equal to `N`. -/
theorem MakeHPA_minReplicas_positive (gv : GroupVersion) (pa : PodAutoscaler) (ctx : Context)
    (N : Int) (hN : 0 < N) (h : pa.Spec.MinReplicas = some N) :
    (MakeHPA gv pa ctx).Spec.MinReplicas = some N := by
  rw [MakeHPA_Spec_MinReplicas, h]
  exact if_pos hN

/-- C4 at `MinReplicas = 2`. -/
theorem MakeHPA_minReplicas_positive_witness :
    (0 : Int) < 2 ∧
    (MakeHPA sampleGroupVersion (samplePA (some 2) 5 "cpu" "50")
      sampleContext).Spec.MinReplicas = some 2 :=
  ⟨by decide, MakeHPA_minReplicas_positive sampleGroupVersion (samplePA (some 2) 5 "cpu" "50")
    sampleContext 2 (by decide) rfl⟩

/-! ## Target-value parsing and the number of metric descriptors -/

/-- C5: for every PodAutoscaler whose `Spec.TargetValue` does not parse as a 64-bit
float, `MakeHPA` still returns an HPA, and its `Spec.Metrics` is empty, for every
`TargetMetric`. -/
theorem MakeHPA_unparsable_metrics_empty (gv : GroupVersion) (pa : PodAutoscaler)
    (ctx : Context) (e : NumError) (h : ParseFloat pa.Spec.TargetValue = .error e) :
    ∃ hpa : HorizontalPodAutoscaler, MakeHPA gv pa ctx = hpa ∧ hpa.Spec.Metrics = [] := by
  refine ⟨MakeHPA gv pa ctx, rfl, ?_⟩
  rw [MakeHPA_Spec_Metrics, h]

/-- C5 at the target value "not-a-number" with target metric "cpu" and "memory". -/
theorem MakeHPA_unparsable_metrics_empty_witness :
    ParseFloat "not-a-number" = .error .ErrSyntax ∧
    (∃ hpa : HorizontalPodAutoscaler,
      MakeHPA sampleGroupVersion (samplePA none 0 "cpu" "not-a-number") sampleContext = hpa ∧
      hpa.Spec.Metrics = []) ∧
    (∃ hpa : HorizontalPodAutoscaler,
      MakeHPA sampleGroupVersion (samplePA none 0 "memory" "not-a-number") sampleContext = hpa ∧
      hpa.Spec.Metrics = []) :=
  ⟨by decide,
   MakeHPA_unparsable_metrics_empty sampleGroupVersion (samplePA none 0 "cpu" "not-a-number")
      sampleContext .ErrSyntax (by decide),
   MakeHPA_unparsable_metrics_empty sampleGroupVersion (samplePA none 0 "memory" "not-a-number")
      sampleContext .ErrSyntax (by decide)⟩

/-- C6: for every PodAutoscaler, the `Spec.Metrics` list of the HPA returned by `MakeHPA`
has length 0 or 1; it has length exactly 1 if and only if `Spec.TargetValue` parses
successfully as a 64-bit float, and length 0 exactly when the parse fails. -/
theorem MakeHPA_metrics_length (gv : GroupVersion) (pa : PodAutoscaler) (ctx : Context) :
    ((MakeHPA gv pa ctx).Spec.Metrics.length = 0 ∨
      (MakeHPA gv pa ctx).Spec.Metrics.length = 1) ∧
    ((MakeHPA gv pa ctx).Spec.Metrics.length = 1 ↔
      ∃ v : Float64, ParseFloat pa.Spec.TargetValue = .ok v) ∧
    ((MakeHPA gv pa ctx).Spec.Metrics.length = 0 ↔
      ∃ e : NumError, ParseFloat pa.Spec.TargetValue = .error e) := by
  rw [MakeHPA_Spec_Metrics]
  cases hp : ParseFloat pa.Spec.TargetValue with
  | error e => simp
  | ok v =>
    by_cases h1 : ToLower pa.Spec.TargetMetric = CPU
    · simp [if_pos h1]
    · by_cases h2 : ToLower pa.Spec.TargetMetric = Memory
      · simp [if_neg h1, if_pos h2]
      · simp [if_neg h1, if_neg h2]

/-! ## The metric descriptor -/

/-- C7 fails as stated: the target value "3000000000" parses to the number 3000000000,
whose ceiling does not fit in 32 bits; the emitted CPU target is the 32-bit integer
-2147483648, which is not the ceiling of the value and lies below it. -/
theorem MakeHPA_cpu_ceil_counterexample :
    ToLower "cpu" = "cpu" ∧
    ParseFloat "3000000000" = .ok (.finite false 6291456000000000 (-21)) ∧
    Float64.toRat (.finite false 6291456000000000 (-21)) = some 3000000000 ∧
    (MakeHPA sampleGroupVersion (samplePA none 0 "cpu" "3000000000")
      sampleContext).Spec.Metrics
      = [{ Type_ := .ResourceMetricSourceType
           Resource := some
             { Name := "cpu"
               Target :=
                 { Type_ := .UtilizationMetricType
                   AverageUtilization := some (-2147483648) } } }] ∧
    (-2147483648 : Int) ≠ ⌈(3000000000 : ℚ)⌉ ∧
    (((-2147483648 : Int) : ℚ) < 3000000000) := by
  refine ⟨by decide, by decide, by norm_num [Float64.toRat], by decide, ?_, by norm_num⟩
  rw [show (3000000000 : ℚ) = ((3000000000 : Int) : ℚ) by norm_num, Int.ceil_intCast]
  decide

/-- C7, amended: for every PodAutoscaler whose `TargetMetric` lower-cases to "cpu" and
whose `TargetValue` parses to a finite number `x` whose ceiling fits in a 32-bit signed
integer, `MakeHPA` emits exactly one metric descriptor: type Resource, resource name cpu,
target type Utilization, with `AverageUtilization` equal to the ceiling of `x`, which is
never below `x`. -/
theorem MakeHPA_cpu_ceil (gv : GroupVersion) (pa : PodAutoscaler) (ctx : Context)
    (v : Float64) (x : ℚ)
    (hm : ToLower pa.Spec.TargetMetric = "cpu")
    (hp : ParseFloat pa.Spec.TargetValue = .ok v)
    (hx : v.toRat = some x)
    (hlo : -2147483648 ≤ ⌈x⌉) (hhi : ⌈x⌉ ≤ 2147483647) :
    (MakeHPA gv pa ctx).Spec.Metrics
      = [{ Type_ := .ResourceMetricSourceType
           Resource := some
             { Name := "cpu"
               Target :=
                 { Type_ := .UtilizationMetricType
                   AverageUtilization := some ⌈x⌉ } } }] ∧
    x ≤ ((⌈x⌉ : Int) : ℚ) := by
  refine ⟨?_, Int.le_ceil x⟩
  rw [MakeHPA_Spec_Metrics, hp]
  simp only []
  have hcpu : ToLower pa.Spec.TargetMetric = CPU := hm
  rw [if_pos hcpu, int32OfFloat64_Ceil v x hx hlo hhi]
  rfl

/-- C7 at target metric "cpu" with target value "75.2": the emitted CPU utilisation
target is 76. -/
theorem MakeHPA_cpu_ceil_witness :
    ToLower "cpu" = "cpu" ∧
    ParseFloat "75.2" = .ok (.finite false 5291729562160333 (-46)) ∧
    (MakeHPA sampleGroupVersion (samplePA none 0 "cpu" "75.2") sampleContext).Spec.Metrics
      = [{ Type_ := .ResourceMetricSourceType
           Resource := some
             { Name := "cpu"
               Target :=
                 { Type_ := .UtilizationMetricType
                   AverageUtilization := some 76 } } }] := by
  have hc : ⌈((if false then -1 else 1) * ((5291729562160333 : ℕ) : ℚ) * (2 : ℚ) ^ (-46 : ℤ))⌉
      = 76 := by
    rw [Int.ceil_eq_iff]; norm_num
  have h := MakeHPA_cpu_ceil sampleGroupVersion (samplePA none 0 "cpu" "75.2") sampleContext
    (.finite false 5291729562160333 (-46)) _ (by decide) (by decide) rfl
    (by rw [hc]; decide) (by rw [hc]; decide)
  rw [hc] at h
  exact ⟨by decide, by decide, h.1⟩

/-- C8 fails as stated: the target value "-1.5" parses to the number -3/2, whose floor is
-2, and the emitted memory quantity is -1048576 bytes (the integer part -1 scaled), not
-2 * 1024 * 1024; the target value "8796093022208" parses to 2^43, and the emitted
quantity is -9223372036854775808 bytes, not 2^43 * 1024 * 1024 (the product overflows 64
bits); the target value "-8796093022209" parses to -2^43 - 1, and the emitted quantity is
9223372036853727232 bytes, not (-2^43 - 1) * 1024 * 1024 (the product overflows 64 bits
downward). -/
theorem MakeHPA_memory_floor_counterexample :
    (ParseFloat "-1.5" = .ok (.finite true 6755399441055744 (-52)) ∧
      Float64.toRat (.finite true 6755399441055744 (-52)) = some (-3 / 2) ∧
      (MakeHPA sampleGroupVersion (samplePA none 0 "memory" "-1.5")
        sampleContext).Spec.Metrics
        = [{ Type_ := .ResourceMetricSourceType
             Resource := some
               { Name := "memory"
                 Target :=
                   { Type_ := .AverageValueMetricType
                     AverageValue := some { value := -1048576, Format := .BinarySI } } } }] ∧
      (-1048576 : Int) ≠ ⌊(-3 / 2 : ℚ)⌋ * 1024 * 1024) ∧
    (ParseFloat "8796093022208" = .ok (.finite false 4503599627370496 (-9)) ∧
      Float64.toRat (.finite false 4503599627370496 (-9)) = some 8796093022208 ∧
      (MakeHPA sampleGroupVersion (samplePA none 0 "memory" "8796093022208")
        sampleContext).Spec.Metrics
        = [{ Type_ := .ResourceMetricSourceType
             Resource := some
               { Name := "memory"
                 Target :=
                   { Type_ := .AverageValueMetricType
                     AverageValue := some
                       { value := -9223372036854775808, Format := .BinarySI } } } }] ∧
      (-9223372036854775808 : Int) ≠ ⌊(8796093022208 : ℚ)⌋ * 1024 * 1024) ∧
    (ParseFloat "-8796093022209" = .ok (.finite true 4503599627371008 (-9)) ∧
      Float64.toRat (.finite true 4503599627371008 (-9)) = some (-8796093022209) ∧
      (MakeHPA sampleGroupVersion (samplePA none 0 "memory" "-8796093022209")
        sampleContext).Spec.Metrics
        = [{ Type_ := .ResourceMetricSourceType
             Resource := some
               { Name := "memory"
                 Target :=
                   { Type_ := .AverageValueMetricType
                     AverageValue := some
                       { value := 9223372036853727232, Format := .BinarySI } } } }] ∧
      (9223372036853727232 : Int) ≠ ⌊(-8796093022209 : ℚ)⌋ * 1024 * 1024) := by
  have h1 : ⌊(-3 / 2 : ℚ)⌋ = -2 := by
    rw [Int.floor_eq_iff]; norm_num
  have h2 : ⌊(8796093022208 : ℚ)⌋ = 8796093022208 := by
    rw [Int.floor_eq_iff]; norm_num
  have h3 : ⌊(-8796093022209 : ℚ)⌋ = -8796093022209 := by
    rw [Int.floor_eq_iff]; norm_num
  refine ⟨⟨by decide, by norm_num [Float64.toRat], by decide, ?_⟩,
    ⟨by decide, by norm_num [Float64.toRat], by decide, ?_⟩,
    ⟨by decide, by norm_num [Float64.toRat], by decide, ?_⟩⟩
  · rw [h1]; decide
  · rw [h2]; decide
  · rw [h3]; decide

/-- C8, amended: for every PodAutoscaler whose `TargetMetric` lower-cases to "memory" and
whose `TargetValue` parses to a finite number `x` that is non-negative or a whole number,
with `-2^43 ≤ floor(x) < 2^43`, `MakeHPA` emits exactly one metric descriptor: type
Resource, resource name memory, target type AverageValue, with a BinarySI quantity of
exactly `floor(x) * 1024 * 1024` bytes. -/
theorem MakeHPA_memory_floor (gv : GroupVersion) (pa : PodAutoscaler) (ctx : Context)
    (v : Float64) (x : ℚ)
    (hm : ToLower pa.Spec.TargetMetric = "memory")
    (hp : ParseFloat pa.Spec.TargetValue = .ok v)
    (hx : v.toRat = some x)
    (hwhole : 0 ≤ x ∨ ((⌊x⌋ : Int) : ℚ) = x)
    (hlo : -(2 ^ 43) ≤ ⌊x⌋) (hhi : ⌊x⌋ < 2 ^ 43) :
    (MakeHPA gv pa ctx).Spec.Metrics
      = [{ Type_ := .ResourceMetricSourceType
           Resource := some
             { Name := "memory"
               Target :=
                 { Type_ := .AverageValueMetricType
                   AverageValue := some
                     { value := ⌊x⌋ * 1024 * 1024, Format := .BinarySI } } } }] := by
  have ht : truncToZero x = ⌊x⌋ := by
    rcases hwhole with h0 | hw
    · exact truncToZero_of_nonneg x h0
    · exact truncToZero_of_floor_eq x hw
  norm_num at hlo hhi
  have hconv : int64OfFloat64 v = ⌊x⌋ := by
    rw [int64OfFloat64_eq v x hx (by rw [ht]; unfold MinInt64; omega)
      (by rw [ht]; unfold MaxInt64; omega), ht]
  have hw : wrapInt64 (wrapInt64 (⌊x⌋ * 1024) * 1024) = ⌊x⌋ * 1024 * 1024 := by
    rw [wrapInt64_scale]
    omega
  have hne : ¬ ToLower pa.Spec.TargetMetric = CPU := by
    rw [hm]; decide
  have hmem : ToLower pa.Spec.TargetMetric = Memory := hm
  rw [MakeHPA_Spec_Metrics, hp]
  simp only []
  rw [if_neg hne, if_pos hmem, hconv, hw]
  rfl

/-- C8 at target metric "memory" with target value "512.9", where the emitted quantity is
512 * 1024 * 1024 = 536870912 bytes, and with the negative whole number "-2", where it is
-2 * 1024 * 1024 = -2097152 bytes. -/
theorem MakeHPA_memory_floor_witness :
    ToLower "memory" = "memory" ∧
    ParseFloat "512.9" = .ok (.finite false 4511516111090483 (-43)) ∧
    (MakeHPA sampleGroupVersion (samplePA none 0 "memory" "512.9") sampleContext).Spec.Metrics
      = [{ Type_ := .ResourceMetricSourceType
           Resource := some
             { Name := "memory"
               Target :=
                 { Type_ := .AverageValueMetricType
                   AverageValue := some { value := 536870912, Format := .BinarySI } } } }] ∧
    ParseFloat "-2" = .ok (.finite true 4503599627370496 (-51)) ∧
    (MakeHPA sampleGroupVersion (samplePA none 0 "memory" "-2") sampleContext).Spec.Metrics
      = [{ Type_ := .ResourceMetricSourceType
           Resource := some
             { Name := "memory"
               Target :=
                 { Type_ := .AverageValueMetricType
                   AverageValue := some { value := -2097152, Format := .BinarySI } } } }] := by
  have hc : ⌊((if false then -1 else 1) * ((4511516111090483 : ℕ) : ℚ) * (2 : ℚ) ^ (-43 : ℤ))⌋
      = 512 := by
    rw [Int.floor_eq_iff]; norm_num
  have hd : ⌊((if true then -1 else 1) * ((4503599627370496 : ℕ) : ℚ) * (2 : ℚ) ^ (-51 : ℤ))⌋
      = -2 := by
    rw [Int.floor_eq_iff]; norm_num
  have h := MakeHPA_memory_floor sampleGroupVersion (samplePA none 0 "memory" "512.9")
    sampleContext (.finite false 4511516111090483 (-43)) _ (by decide) (by decide) rfl
    (Or.inl (by norm_num)) (by rw [hc]; decide) (by rw [hc]; decide)
  have h' := MakeHPA_memory_floor sampleGroupVersion (samplePA none 0 "memory" "-2")
    sampleContext (.finite true 4503599627370496 (-51)) _ (by decide) (by decide) rfl
    (Or.inr (by rw [hd]; norm_num)) (by rw [hd]; decide) (by rw [hd]; decide)
  rw [hc] at h
  rw [hd] at h'
  exact ⟨by decide, by decide, h, by decide, h'⟩

/-- C9 fails as stated: the target value "10000000000000000000" parses to the number
10^19, which is its own integer part and does not fit in 64 bits; the emitted quantity is
the 64-bit integer -9223372036854775808, not 10^19. -/
theorem MakeHPA_pods_trunc_counterexample :
    ToLower "queue_depth" ≠ "cpu" ∧ ToLower "queue_depth" ≠ "memory" ∧
    ParseFloat "10000000000000000000" = .ok (.finite false 4882812500000000 11) ∧
    Float64.toRat (.finite false 4882812500000000 11) = some 10000000000000000000 ∧
    truncToZero 10000000000000000000 = 10000000000000000000 ∧
    (MakeHPA sampleGroupVersion (samplePA none 0 "queue_depth" "10000000000000000000")
      sampleContext).Spec.Metrics
      = [{ Type_ := .PodsMetricSourceType
           Pods := some
             { Metric := { Name := "queue_depth" }
               Target :=
                 { Type_ := .AverageValueMetricType
                   AverageValue := some
                     { value := -9223372036854775808, Format := .DecimalSI } } } }] ∧
    (-9223372036854775808 : Int) ≠ 10000000000000000000 := by
  refine ⟨by decide, by decide, by decide, by norm_num [Float64.toRat], ?_, by decide,
    by decide⟩
  rw [truncToZero_of_nonneg _ (by norm_num), Int.floor_eq_iff]
  norm_num

/-- C9, amended: for every PodAutoscaler whose lower-cased `TargetMetric` is neither "cpu"
nor "memory" and whose `TargetValue` parses to a finite number `x` whose integer part
(truncated toward zero) fits in a 64-bit signed integer, `MakeHPA` emits exactly one
metric descriptor: type Pods, whose metric name is `Spec.TargetMetric` verbatim, target
type AverageValue, with a DecimalSI quantity equal to that integer part. -/
theorem MakeHPA_pods_trunc (gv : GroupVersion) (pa : PodAutoscaler) (ctx : Context)
    (v : Float64) (x : ℚ)
    (hc : ToLower pa.Spec.TargetMetric ≠ "cpu")
    (hm : ToLower pa.Spec.TargetMetric ≠ "memory")
    (hp : ParseFloat pa.Spec.TargetValue = .ok v)
    (hx : v.toRat = some x)
    (hlo : -9223372036854775808 ≤ truncToZero x)
    (hhi : truncToZero x ≤ 9223372036854775807) :
    (MakeHPA gv pa ctx).Spec.Metrics
      = [{ Type_ := .PodsMetricSourceType
           Pods := some
             { Metric := { Name := pa.Spec.TargetMetric }
               Target :=
                 { Type_ := .AverageValueMetricType
                   AverageValue := some
                     { value := truncToZero x, Format := .DecimalSI } } } }] := by
  have hcpu : ¬ ToLower pa.Spec.TargetMetric = CPU := hc
  have hmem : ¬ ToLower pa.Spec.TargetMetric = Memory := hm
  rw [MakeHPA_Spec_Metrics, hp]
  simp only []
  rw [if_neg hcpu, if_neg hmem, int64OfFloat64_eq v x hx hlo hhi]
  rfl

/-- C9 at target metric "queue_depth" with target value "10": name "queue_depth", value
10; and at "Queue_Depth" with "-2.5": the name keeps its capitals, the value is -2. -/
theorem MakeHPA_pods_trunc_witness :
    ToLower "queue_depth" ≠ "cpu" ∧ ToLower "queue_depth" ≠ "memory" ∧
    ParseFloat "10" = .ok (.finite false 5629499534213120 (-49)) ∧
    (MakeHPA sampleGroupVersion (samplePA none 0 "queue_depth" "10")
      sampleContext).Spec.Metrics
      = [{ Type_ := .PodsMetricSourceType
           Pods := some
             { Metric := { Name := "queue_depth" }
               Target :=
                 { Type_ := .AverageValueMetricType
                   AverageValue := some { value := 10, Format := .DecimalSI } } } }] ∧
    (MakeHPA sampleGroupVersion (samplePA none 0 "Queue_Depth" "-2.5")
      sampleContext).Spec.Metrics
      = [{ Type_ := .PodsMetricSourceType
           Pods := some
             { Metric := { Name := "Queue_Depth" }
               Target :=
                 { Type_ := .AverageValueMetricType
                   AverageValue := some { value := -2, Format := .DecimalSI } } } }] := by
  have hc1 : truncToZero
      ((if false then -1 else 1) * ((5629499534213120 : ℕ) : ℚ) * (2 : ℚ) ^ (-49 : ℤ)) = 10 := by
    rw [truncToZero_of_nonneg _ (by norm_num), Int.floor_eq_iff]; norm_num
  have hc2 : truncToZero
      ((if true then -1 else 1) * ((5629499534213120 : ℕ) : ℚ) * (2 : ℚ) ^ (-51 : ℤ)) = -2 := by
    unfold truncToZero
    rw [if_neg (by norm_num), Int.ceil_eq_iff]; norm_num
  have h1 := MakeHPA_pods_trunc sampleGroupVersion (samplePA none 0 "queue_depth" "10")
    sampleContext (.finite false 5629499534213120 (-49)) _ (by decide) (by decide)
    (by decide) rfl (by rw [hc1]; decide) (by rw [hc1]; decide)
  have h2 := MakeHPA_pods_trunc sampleGroupVersion (samplePA none 0 "Queue_Depth" "-2.5")
    sampleContext (.finite true 5629499534213120 (-51)) _ (by decide) (by decide)
    (by decide) rfl (by rw [hc2]; decide) (by rw [hc2]; decide)
  rw [hc1] at h1
  rw [hc2] at h2
  exact ⟨by decide, by decide, by decide, h1, h2⟩

/-- C10: metric selection is case-insensitive.  For every `TargetMetric` that is an
upper/lower-case variant of "cpu" (respectively of "memory") and every `TargetValue`,
`MakeHPA` returns the same `Metrics` as it does for `TargetMetric` "cpu" (respectively
"memory") with that `TargetValue`; when the `TargetValue` parses, this is the Resource
descriptor of that resource. -/
theorem MakeHPA_metric_case_insensitive (gv : GroupVersion) (pa : PodAutoscaler)
    (ctx : Context) (t : String) (ht : t = "cpu" ∨ t = "memory")
    (hv : IsCaseVariant pa.Spec.TargetMetric t) :
    (MakeHPA gv pa ctx).Spec.Metrics = (MakeHPA gv (withTargetMetric pa t) ctx).Spec.Metrics ∧
    ∀ v : Float64, ParseFloat pa.Spec.TargetValue = .ok v →
      ∃ target : MetricTarget,
        (MakeHPA gv pa ctx).Spec.Metrics
          = [{ Type_ := .ResourceMetricSourceType
               Resource := some { Name := t, Target := target } }] := by
  rw [MakeHPA_Spec_Metrics, MakeHPA_Spec_Metrics]
  have hval : (withTargetMetric pa t).Spec.TargetValue = pa.Spec.TargetValue := rfl
  have hmet : (withTargetMetric pa t).Spec.TargetMetric = t := rfl
  rw [hval, hmet]
  rcases ht with ht | ht
  · subst ht
    have h1 : ToLower pa.Spec.TargetMetric = CPU := ToLower_cpu_of_IsCaseVariant _ hv
    have h2 : ToLower "cpu" = CPU := by decide
    rw [h1, h2]
    refine ⟨rfl, ?_⟩
    intro v hp
    rw [hp]
    exact ⟨_, rfl⟩
  · subst ht
    have h1 : ToLower pa.Spec.TargetMetric = Memory := ToLower_memory_of_IsCaseVariant _ hv
    have h2 : ToLower "memory" = Memory := by decide
    have h3 : ¬ Memory = CPU := by decide
    rw [h1, h2]
    refine ⟨rfl, ?_⟩
    intro v hp
    rw [hp]
    simp only []
    rw [if_neg h3, if_pos trivial]
    exact ⟨_, rfl⟩

/-- C10 at the spellings "CPU" and "Cpu" of "cpu" and "MeMoRy" of "memory". -/
theorem MakeHPA_metric_case_insensitive_witness :
    (IsCaseVariant "CPU" "cpu" ∧
      (MakeHPA sampleGroupVersion (samplePA none 0 "CPU" "75.2") sampleContext).Spec.Metrics
        = (MakeHPA sampleGroupVersion (samplePA none 0 "cpu" "75.2")
            sampleContext).Spec.Metrics) ∧
    (IsCaseVariant "Cpu" "cpu" ∧
      (MakeHPA sampleGroupVersion (samplePA none 0 "Cpu" "75.2") sampleContext).Spec.Metrics
        = (MakeHPA sampleGroupVersion (samplePA none 0 "cpu" "75.2")
            sampleContext).Spec.Metrics) ∧
    (IsCaseVariant "MeMoRy" "memory" ∧
      (MakeHPA sampleGroupVersion (samplePA none 0 "MeMoRy" "512.9") sampleContext).Spec.Metrics
        = (MakeHPA sampleGroupVersion (samplePA none 0 "memory" "512.9")
            sampleContext).Spec.Metrics) :=
  ⟨⟨by decide,
    (MakeHPA_metric_case_insensitive sampleGroupVersion (samplePA none 0 "CPU" "75.2")
      sampleContext "cpu" (Or.inl rfl) (by decide)).1⟩,
   ⟨by decide,
    (MakeHPA_metric_case_insensitive sampleGroupVersion (samplePA none 0 "Cpu" "75.2")
      sampleContext "cpu" (Or.inl rfl) (by decide)).1⟩,
   ⟨by decide,
    (MakeHPA_metric_case_insensitive sampleGroupVersion (samplePA none 0 "MeMoRy" "512.9")
      sampleContext "memory" (Or.inr rfl) (by decide)).1⟩⟩

/-! ## Identity, copied fields and ownership -/

/-- C11: for every PodAutoscaler, the name of the HPA returned by `MakeHPA` is exactly the
intent's `Name` followed by "-hpa", and the derivation is injective: two intents with
different `Name`s always get different HPA names. -/
theorem MakeHPA_name (gv : GroupVersion) (pa₁ pa₂ : PodAutoscaler) (ctx₁ ctx₂ : Context) :
    (MakeHPA gv pa₁ ctx₁).ObjectMeta.Name = pa₁.ObjectMeta.Name ++ "-hpa" ∧
    (pa₁.ObjectMeta.Name ≠ pa₂.ObjectMeta.Name →
      (MakeHPA gv pa₁ ctx₁).ObjectMeta.Name ≠ (MakeHPA gv pa₂ ctx₂).ObjectMeta.Name) := by
  rw [MakeHPA_ObjectMeta, MakeHPA_ObjectMeta]
  refine ⟨rfl, ?_⟩
  intro hne heq
  exact hne (String_append_right_cancel _ _ "-hpa" heq)

/-- C11 at the names "web" and "" (the empty name gives "-hpa"). -/
theorem MakeHPA_name_witness :
    (MakeHPA sampleGroupVersion (samplePANamed "web") sampleContext).ObjectMeta.Name
      = "web-hpa" ∧
    (MakeHPA sampleGroupVersion (samplePANamed "") sampleContext).ObjectMeta.Name = "-hpa" ∧
    ("web" ≠ "" ∧
      (MakeHPA sampleGroupVersion (samplePANamed "web") sampleContext).ObjectMeta.Name
        ≠ (MakeHPA sampleGroupVersion (samplePANamed "") sampleContext).ObjectMeta.Name) :=
  ⟨(MakeHPA_name sampleGroupVersion (samplePANamed "web") (samplePANamed "") sampleContext
      sampleContext).1,
   (MakeHPA_name sampleGroupVersion (samplePANamed "") (samplePANamed "web") sampleContext
      sampleContext).1,
   by decide,
   (MakeHPA_name sampleGroupVersion (samplePANamed "web") (samplePANamed "") sampleContext
      sampleContext).2 (by decide)⟩

/-- C12: for every PodAutoscaler, the HPA returned by `MakeHPA` has the same `Namespace`,
the same `Labels` and the same `Annotations` as the intent, and its `Spec.ScaleTargetRef`
has `APIVersion`, `Kind` and `Name` equal to those of the intent's `Spec.ScaleTargetRef`;
nothing is validated or altered. -/
theorem MakeHPA_copied_fields (gv : GroupVersion) (pa : PodAutoscaler) (ctx : Context) :
    (MakeHPA gv pa ctx).ObjectMeta.Namespace = pa.ObjectMeta.Namespace ∧
    (MakeHPA gv pa ctx).ObjectMeta.Labels = pa.ObjectMeta.Labels ∧
    (MakeHPA gv pa ctx).ObjectMeta.Annotations = pa.ObjectMeta.Annotations ∧
    (MakeHPA gv pa ctx).Spec.ScaleTargetRef.APIVersion = pa.Spec.ScaleTargetRef.APIVersion ∧
    (MakeHPA gv pa ctx).Spec.ScaleTargetRef.Kind = pa.Spec.ScaleTargetRef.Kind ∧
    (MakeHPA gv pa ctx).Spec.ScaleTargetRef.Name = pa.Spec.ScaleTargetRef.Name := by
  rw [MakeHPA_ObjectMeta, MakeHPA_Spec_ScaleTargetRef]
  exact ⟨rfl, rfl, rfl, rfl, rfl, rfl⟩

/-- C13: for every PodAutoscaler, the HPA returned by `MakeHPA` carries exactly one owner
reference; it has the intent's `Name` and `UID`, the fixed kind "PodAutoScaler" with the
API group/version of the PodAutoscaler type, and is marked as the controller
reference. -/
theorem MakeHPA_owner_reference (gv : GroupVersion) (pa : PodAutoscaler) (ctx : Context) :
    (MakeHPA gv pa ctx).ObjectMeta.OwnerReferences
      = [{ APIVersion := gv.String
           Kind := "PodAutoScaler"
           Name := pa.ObjectMeta.Name
           UID := pa.ObjectMeta.UID
           Controller := some true
           BlockOwnerDeletion := some true }] ∧
    (MakeHPA gv pa ctx).ObjectMeta.OwnerReferences.length = 1 ∧
    (gv.Group ≠ "" → gv.String = gv.Group ++ "/" ++ gv.Version) := by
  rw [MakeHPA_ObjectMeta]
  refine ⟨rfl, rfl, ?_⟩
  intro hg
  unfold GroupVersion.String
  rw [if_pos]
  cases hgr : gv.Group with
  | mk l =>
    cases l with
    | nil => exact absurd hgr hg
    | cons c cs => simp [String.length]

/-- C13 at the sample intent: one owner reference of kind "PodAutoScaler" in
"autoscaling.aibrix.ai/v1alpha1" to the intent "web" with UID "uid-1". -/
theorem MakeHPA_owner_reference_witness :
    sampleGroupVersion.Group ≠ "" ∧
    (MakeHPA sampleGroupVersion (samplePA none 0 "cpu" "50")
      sampleContext).ObjectMeta.OwnerReferences
      = [{ APIVersion := "autoscaling.aibrix.ai/v1alpha1"
           Kind := "PodAutoScaler"
           Name := "web"
           UID := "uid-1"
           Controller := some true
           BlockOwnerDeletion := some true }] := by
  have h := MakeHPA_owner_reference sampleGroupVersion (samplePA none 0 "cpu" "50")
    sampleContext
  refine ⟨by decide, ?_⟩
  rw [h.1, h.2.2 (by decide)]
  decide

/-! ## Branch selection, memory scaling and the frame of the metric fields -/

/-- C15: the three metric branches are mutually exclusive and exhaustive.  For every
PodAutoscaler with a parsable `TargetValue`, the single emitted descriptor has exactly one
of its Resource / Pods parts set; it is a Resource descriptor (named cpu or memory) if and
only if the lower-cased `TargetMetric` is "cpu" or "memory", and a Pods descriptor
otherwise, so a Pods descriptor never carries a name that is a case variant of "cpu" or
"memory". -/
theorem MakeHPA_branches_exclusive (gv : GroupVersion) (pa : PodAutoscaler) (ctx : Context)
    (v : Float64) (hp : ParseFloat pa.Spec.TargetValue = .ok v) :
    ∃ m : MetricSpec,
      (MakeHPA gv pa ctx).Spec.Metrics = [m] ∧
      ((m.Resource.isSome = true ∧ m.Pods = none ∧ m.Type_ = .ResourceMetricSourceType) ∨
        (m.Resource = none ∧ m.Pods.isSome = true ∧ m.Type_ = .PodsMetricSourceType)) ∧
      (m.Resource.isSome = true ↔
        (ToLower pa.Spec.TargetMetric = "cpu" ∨ ToLower pa.Spec.TargetMetric = "memory")) ∧
      (m.Pods.isSome = true ↔
        (ToLower pa.Spec.TargetMetric ≠ "cpu" ∧ ToLower pa.Spec.TargetMetric ≠ "memory")) ∧
      (∀ r : ResourceMetricSource, m.Resource = some r →
        (ToLower pa.Spec.TargetMetric = "cpu" ∧ r.Name = "cpu") ∨
        (ToLower pa.Spec.TargetMetric = "memory" ∧ r.Name = "memory")) ∧
      (∀ p : PodsMetricSource, m.Pods = some p →
        p.Metric.Name = pa.Spec.TargetMetric ∧
        ¬ IsCaseVariant p.Metric.Name "cpu" ∧ ¬ IsCaseVariant p.Metric.Name "memory") := by
  rw [MakeHPA_Spec_Metrics, hp]
  simp only []
  have hcm : ¬ ("cpu" : String) = "memory" := by decide
  by_cases h1 : ToLower pa.Spec.TargetMetric = CPU
  · have h1s : ToLower pa.Spec.TargetMetric = "cpu" := h1
    rw [if_pos h1]
    refine ⟨_, rfl, Or.inl ⟨rfl, rfl, rfl⟩, ?_, ?_, ?_, ?_⟩
    · exact ⟨fun _ => Or.inl h1s, fun _ => rfl⟩
    · constructor
      · intro h; exact absurd h (by simp [cpuMetric])
      · intro h; exact absurd h1s h.1
    · intro r hr
      have : r.Name = "cpu" := by
        simp only [cpuMetric, Option.some.injEq] at hr
        rw [← hr]; rfl
      exact Or.inl ⟨h1s, this⟩
    · intro p hpp
      simp [cpuMetric] at hpp
  · rw [if_neg h1]
    by_cases h2 : ToLower pa.Spec.TargetMetric = Memory
    · have h2s : ToLower pa.Spec.TargetMetric = "memory" := h2
      rw [if_pos h2]
      refine ⟨_, rfl, Or.inl ⟨rfl, rfl, rfl⟩, ?_, ?_, ?_, ?_⟩
      · exact ⟨fun _ => Or.inr h2s, fun _ => rfl⟩
      · constructor
        · intro h; exact absurd h (by simp [memoryMetric])
        · intro h; exact absurd h2s h.2
      · intro r hr
        have : r.Name = "memory" := by
          simp only [memoryMetric, Option.some.injEq] at hr
          rw [← hr]; rfl
        exact Or.inr ⟨h2s, this⟩
      · intro p hpp
        simp [memoryMetric] at hpp
    · rw [if_neg h2]
      refine ⟨_, rfl, Or.inr ⟨rfl, rfl, rfl⟩, ?_, ?_, ?_, ?_⟩
      · constructor
        · intro h; exact absurd h (by simp [podsMetric])
        · intro h
          rcases h with h | h
          · exact absurd h h1
          · exact absurd h h2
      · exact ⟨fun _ => ⟨h1, h2⟩, fun _ => rfl⟩
      · intro r hr
        simp [podsMetric] at hr
      · intro p hpp
        have hn : p.Metric.Name = pa.Spec.TargetMetric := by
          simp only [podsMetric, Option.some.injEq] at hpp
          rw [← hpp]
        rw [hn]
        exact ⟨rfl, fun hv => h1 (ToLower_cpu_of_IsCaseVariant _ hv),
          fun hv => h2 (ToLower_memory_of_IsCaseVariant _ hv)⟩

/-- C15 at the target metrics "Cpu" (Resource descriptor) and "queue_depth" (Pods
descriptor) with target value "10". -/
theorem MakeHPA_branches_exclusive_witness :
    ParseFloat "10" = .ok (.finite false 5629499534213120 (-49)) ∧
    (∃ m : MetricSpec,
      (MakeHPA sampleGroupVersion (samplePA none 0 "Cpu" "10") sampleContext).Spec.Metrics
        = [m] ∧ m.Resource.isSome = true ∧ m.Pods = none) ∧
    (∃ m : MetricSpec,
      (MakeHPA sampleGroupVersion (samplePA none 0 "queue_depth" "10")
        sampleContext).Spec.Metrics = [m] ∧ m.Resource = none ∧ m.Pods.isSome = true) := by
  obtain ⟨m₁, hm₁, _, hr₁, hq₁, _, _⟩ :=
    MakeHPA_branches_exclusive sampleGroupVersion (samplePA none 0 "Cpu" "10") sampleContext
      (.finite false 5629499534213120 (-49)) (by decide)
  obtain ⟨m₂, hm₂, _, hr₂, hq₂, _, _⟩ :=
    MakeHPA_branches_exclusive sampleGroupVersion (samplePA none 0 "queue_depth" "10")
      sampleContext (.finite false 5629499534213120 (-49)) (by decide)
  have a1 : m₁.Resource.isSome = true := hr₁.mpr (Or.inl (by decide))
  have a2 : ¬ m₁.Pods.isSome = true := fun h => (hq₁.mp h).1 (by decide)
  have b1 : m₂.Pods.isSome = true := hq₂.mpr ⟨by decide, by decide⟩
  have b2 : ¬ m₂.Resource.isSome = true := fun h => by
    rcases hr₂.mp h with h | h
    · exact absurd h (by decide)
    · exact absurd h (by decide)
  refine ⟨by decide, ⟨m₁, hm₁, a1, ?_⟩, ⟨m₂, hm₂, ?_, b1⟩⟩
  · cases hpods : m₁.Pods with
    | none => rfl
    | some p => rw [hpods] at a2; exact absurd rfl a2
  · cases hres : m₂.Resource with
    | none => rfl
    | some r => rw [hres] at b2; exact absurd rfl b2

/-- C16: in the memory branch the target is truncated toward zero, never rounded.  For
every parsable `TargetValue` with value `x` whose integer part `t` (truncated toward zero)
satisfies `|t| < 2^43`, the emitted memory quantity is exactly `t * 1048576` bytes; in
particular a value with `0 ≤ x < 1` gives 0 bytes. -/
theorem MakeHPA_memory_trunc (gv : GroupVersion) (pa : PodAutoscaler) (ctx : Context)
    (v : Float64) (x : ℚ)
    (hm : ToLower pa.Spec.TargetMetric = "memory")
    (hp : ParseFloat pa.Spec.TargetValue = .ok v)
    (hx : v.toRat = some x)
    (hb : |truncToZero x| < 2 ^ 43) :
    (MakeHPA gv pa ctx).Spec.Metrics
      = [{ Type_ := .ResourceMetricSourceType
           Resource := some
             { Name := "memory"
               Target :=
                 { Type_ := .AverageValueMetricType
                   AverageValue := some
                     { value := truncToZero x * 1048576, Format := .BinarySI } } } }] ∧
    (0 ≤ x → x < 1 → truncToZero x * 1048576 = 0) := by
  have hb2 := abs_lt.mp hb
  have hlo : -8796093022208 < truncToZero x := by
    have := hb2.1
    norm_num at this
    exact this
  have hhi : truncToZero x < 8796093022208 := by
    have := hb2.2
    norm_num at this
    exact this
  have hconv : int64OfFloat64 v = truncToZero x :=
    int64OfFloat64_eq v x hx (by unfold MinInt64; omega) (by unfold MaxInt64; omega)
  have hw : wrapInt64 (wrapInt64 (truncToZero x * 1024) * 1024)
      = truncToZero x * 1048576 := by
    rw [wrapInt64_scale]
    omega
  have hne : ¬ ToLower pa.Spec.TargetMetric = CPU := by
    rw [hm]; decide
  have hmem : ToLower pa.Spec.TargetMetric = Memory := hm
  constructor
  · rw [MakeHPA_Spec_Metrics, hp]
    simp only []
    rw [if_neg hne, if_pos hmem, hconv, hw]
    rfl
  · intro h0 h1
    rw [truncToZero_of_nonneg x h0]
    have : ⌊x⌋ = 0 := by
      rw [Int.floor_eq_iff]
      constructor
      · simpa using h0
      · simpa using h1
    rw [this]
    rfl

/-- C16 at the target values "512.9" (536870912 bytes, that is 512 MiB and not 513) and
"0.5" (0 bytes). -/
theorem MakeHPA_memory_trunc_witness :
    (MakeHPA sampleGroupVersion (samplePA none 0 "memory" "512.9") sampleContext).Spec.Metrics
      = [{ Type_ := .ResourceMetricSourceType
           Resource := some
             { Name := "memory"
               Target :=
                 { Type_ := .AverageValueMetricType
                   AverageValue := some { value := 536870912, Format := .BinarySI } } } }] ∧
    (MakeHPA sampleGroupVersion (samplePA none 0 "memory" "0.5") sampleContext).Spec.Metrics
      = [{ Type_ := .ResourceMetricSourceType
           Resource := some
             { Name := "memory"
               Target :=
                 { Type_ := .AverageValueMetricType
                   AverageValue := some { value := 0, Format := .BinarySI } } } }] := by
  have hc1 : truncToZero
      ((if false then -1 else 1) * ((4511516111090483 : ℕ) : ℚ) * (2 : ℚ) ^ (-43 : ℤ))
      = 512 := by
    rw [truncToZero_of_nonneg _ (by norm_num), Int.floor_eq_iff]; norm_num
  have hc2 : truncToZero
      ((if false then -1 else 1) * ((4503599627370496 : ℕ) : ℚ) * (2 : ℚ) ^ (-53 : ℤ))
      = 0 := by
    rw [truncToZero_of_nonneg _ (by norm_num), Int.floor_eq_iff]; norm_num
  have h1 := (MakeHPA_memory_trunc sampleGroupVersion (samplePA none 0 "memory" "512.9")
    sampleContext (.finite false 4511516111090483 (-43)) _ (by decide) (by decide) rfl
    (by rw [hc1]; decide)).1
  have h2 := (MakeHPA_memory_trunc sampleGroupVersion (samplePA none 0 "memory" "0.5")
    sampleContext (.finite false 4503599627370496 (-53)) _ (by decide) (by decide) rfl
    (by rw [hc2]; decide)).1
  rw [hc1] at h1
  rw [hc2] at h2
  exact ⟨h1, h2⟩

/-- C17: everything in the HPA returned by `MakeHPA` except `Spec.Metrics` is independent
of the intent's `TargetMetric` and `TargetValue`.  For any two intents that agree on
every field other than `TargetMetric` and `TargetValue`, the two results have equal
`ObjectMeta` (name, namespace, labels, annotations, owner references), equal
`ScaleTargetRef`, equal `MinReplicas` and equal `MaxReplicas`. -/
theorem MakeHPA_frame (gv : GroupVersion) (pa₁ pa₂ : PodAutoscaler) (ctx : Context)
    (hmeta : pa₁.ObjectMeta = pa₂.ObjectMeta)
    (href : pa₁.Spec.ScaleTargetRef = pa₂.Spec.ScaleTargetRef)
    (hmin : pa₁.Spec.MinReplicas = pa₂.Spec.MinReplicas)
    (hmax : pa₁.Spec.MaxReplicas = pa₂.Spec.MaxReplicas) :
    (MakeHPA gv pa₁ ctx).ObjectMeta = (MakeHPA gv pa₂ ctx).ObjectMeta ∧
    (MakeHPA gv pa₁ ctx).Spec.ScaleTargetRef = (MakeHPA gv pa₂ ctx).Spec.ScaleTargetRef ∧
    (MakeHPA gv pa₁ ctx).Spec.MinReplicas = (MakeHPA gv pa₂ ctx).Spec.MinReplicas ∧
    (MakeHPA gv pa₁ ctx).Spec.MaxReplicas = (MakeHPA gv pa₂ ctx).Spec.MaxReplicas := by
  refine ⟨?_, ?_, ?_, ?_⟩
  · rw [MakeHPA_ObjectMeta, MakeHPA_ObjectMeta]
    unfold getHPANameFromPa
    rw [hmeta]
  · rw [MakeHPA_Spec_ScaleTargetRef, MakeHPA_Spec_ScaleTargetRef, href]
  · rw [MakeHPA_Spec_MinReplicas, MakeHPA_Spec_MinReplicas, hmin]
  · rw [MakeHPA_Spec_MaxReplicas, MakeHPA_Spec_MaxReplicas, hmax]

/-- C17 at two intents that differ in both `TargetMetric` and `TargetValue`, one with a
parsable value and one without: the metrics differ, everything else is equal. -/
theorem MakeHPA_frame_witness :
    (MakeHPA sampleGroupVersion (samplePA (some 2) 7 "cpu" "75.2") sampleContext).Spec.Metrics
      ≠ (MakeHPA sampleGroupVersion (samplePA (some 2) 7 "queue_depth" "not-a-number")
          sampleContext).Spec.Metrics ∧
    (MakeHPA sampleGroupVersion (samplePA (some 2) 7 "cpu" "75.2") sampleContext).ObjectMeta
      = (MakeHPA sampleGroupVersion (samplePA (some 2) 7 "queue_depth" "not-a-number")
          sampleContext).ObjectMeta ∧
    (MakeHPA sampleGroupVersion (samplePA (some 2) 7 "cpu" "75.2")
        sampleContext).Spec.ScaleTargetRef
      = (MakeHPA sampleGroupVersion (samplePA (some 2) 7 "queue_depth" "not-a-number")
          sampleContext).Spec.ScaleTargetRef ∧
    (MakeHPA sampleGroupVersion (samplePA (some 2) 7 "cpu" "75.2")
        sampleContext).Spec.MinReplicas
      = (MakeHPA sampleGroupVersion (samplePA (some 2) 7 "queue_depth" "not-a-number")
          sampleContext).Spec.MinReplicas ∧
    (MakeHPA sampleGroupVersion (samplePA (some 2) 7 "cpu" "75.2")
        sampleContext).Spec.MaxReplicas
      = (MakeHPA sampleGroupVersion (samplePA (some 2) 7 "queue_depth" "not-a-number")
          sampleContext).Spec.MaxReplicas :=
  ⟨by decide,
   MakeHPA_frame sampleGroupVersion (samplePA (some 2) 7 "cpu" "75.2")
    (samplePA (some 2) 7 "queue_depth" "not-a-number") sampleContext rfl rfl rfl rfl⟩

/-- C18: the memory byte count is computed in signed 64-bit arithmetic with no overflow
guard.  For a parsable `TargetValue` with value `x` whose integer part `t` is within the
`int64` range, the emitted quantity is `t * 2^20` wrapped modulo `2^64` into the signed
range. -/
theorem MakeHPA_memory_wraps (gv : GroupVersion) (pa : PodAutoscaler) (ctx : Context)
    (v : Float64) (x : ℚ)
    (hm : ToLower pa.Spec.TargetMetric = "memory")
    (hp : ParseFloat pa.Spec.TargetValue = .ok v)
    (hx : v.toRat = some x)
    (hlo : -(2 ^ 63) ≤ truncToZero x) (hhi : truncToZero x < 2 ^ 63) :
    (MakeHPA gv pa ctx).Spec.Metrics
      = [{ Type_ := .ResourceMetricSourceType
           Resource := some
             { Name := "memory"
               Target :=
                 { Type_ := .AverageValueMetricType
                   AverageValue := some
                     { value := (truncToZero x * 2 ^ 20 + 2 ^ 63) % 2 ^ 64 - 2 ^ 63
                       Format := .BinarySI } } } }] := by
  have hconv : int64OfFloat64 v = truncToZero x :=
    int64OfFloat64_eq v x hx (by unfold MinInt64; norm_num at hlo; omega)
      (by unfold MaxInt64; norm_num at hhi; omega)
  have hne : ¬ ToLower pa.Spec.TargetMetric = CPU := by
    rw [hm]; decide
  have hmem : ToLower pa.Spec.TargetMetric = Memory := hm
  rw [MakeHPA_Spec_Metrics, hp]
  simp only []
  rw [if_neg hne, if_pos hmem, hconv, wrapInt64_scale]
  norm_num [memoryMetric, NewQuantity, ResourceMemory]

/-- C18 at the positive target value "8796093022208" (that is `2^43`): the emitted memory
quantity is the negative number `-2^63`, not `2^43 * 2^20`. -/
theorem MakeHPA_memory_wraps_witness :
    ParseFloat "8796093022208" = .ok (.finite false 4503599627370496 (-9)) ∧
    Float64.toRat (.finite false 4503599627370496 (-9)) = some 8796093022208 ∧
    (MakeHPA sampleGroupVersion (samplePA none 0 "memory" "8796093022208")
      sampleContext).Spec.Metrics
      = [{ Type_ := .ResourceMetricSourceType
           Resource := some
             { Name := "memory"
               Target :=
                 { Type_ := .AverageValueMetricType
                   AverageValue := some
                     { value := -9223372036854775808, Format := .BinarySI } } } }] ∧
    (-9223372036854775808 : Int) < 0 ∧
    (-9223372036854775808 : Int) ≠ 8796093022208 * 2 ^ 20 := by
  have hc : truncToZero
      ((if false then -1 else 1) * ((4503599627370496 : ℕ) : ℚ) * (2 : ℚ) ^ (-9 : ℤ))
      = 8796093022208 := by
    rw [truncToZero_of_nonneg _ (by norm_num), Int.floor_eq_iff]; norm_num
  have h := MakeHPA_memory_wraps sampleGroupVersion
    (samplePA none 0 "memory" "8796093022208") sampleContext
    (.finite false 4503599627370496 (-9)) _ (by decide) (by decide) rfl
    (by rw [hc]; decide) (by rw [hc]; decide)
  rw [hc] at h
  refine ⟨by decide, by norm_num [Float64.toRat], ?_, by decide, by decide⟩
  rw [h]
  decide

/-! ## No relation between the replica bounds -/

/-- C19: `MakeHPA` does not relate the two replica bounds.  For the intents with
`MinReplicas = 5`, `MaxReplicas = 3` and with `MinReplicas = 1`, `MaxReplicas = -1` the
returned HPA has `Spec.MinReplicas` set and strictly greater than `Spec.MaxReplicas`.  For
every intent the output `MaxReplicas` is not 0 and an output `MinReplicas`, when set, is at
least 1; and these are the only constraints: every pair of a non-zero maximum and an unset
or positive minimum is the output for the intent declaring that pair. -/
theorem MakeHPA_replica_bounds_unrelated (gv : GroupVersion) (ctx : Context) :
    (∃ n : Int,
      (MakeHPA gv (samplePA (some 5) 3 "cpu" "50") ctx).Spec.MinReplicas = some n ∧
      (MakeHPA gv (samplePA (some 5) 3 "cpu" "50") ctx).Spec.MaxReplicas < n) ∧
    (∃ n : Int,
      (MakeHPA gv (samplePA (some 1) (-1) "cpu" "50") ctx).Spec.MinReplicas = some n ∧
      (MakeHPA gv (samplePA (some 1) (-1) "cpu" "50") ctx).Spec.MaxReplicas < n) ∧
    (∀ pa : PodAutoscaler,
      (MakeHPA gv pa ctx).Spec.MaxReplicas ≠ 0 ∧
      ∀ n : Int, (MakeHPA gv pa ctx).Spec.MinReplicas = some n → 1 ≤ n) ∧
    (∀ (m : Option Int) (M : Int), M ≠ 0 → (∀ n : Int, m = some n → 1 ≤ n) →
      ∃ pa : PodAutoscaler,
        pa.Spec.MinReplicas = m ∧ pa.Spec.MaxReplicas = M ∧
        (MakeHPA gv pa ctx).Spec.MinReplicas = m ∧
        (MakeHPA gv pa ctx).Spec.MaxReplicas = M) := by
  refine ⟨⟨5, ?_, ?_⟩, ⟨1, ?_, ?_⟩, ?_, ?_⟩
  · rw [MakeHPA_Spec_MinReplicas]; rfl
  · rw [MakeHPA_Spec_MaxReplicas]; decide
  · rw [MakeHPA_Spec_MinReplicas]; rfl
  · rw [MakeHPA_Spec_MaxReplicas]; decide
  · intro pa
    constructor
    · rw [MakeHPA_Spec_MaxReplicas]
      by_cases h : pa.Spec.MaxReplicas = 0
      · rw [if_pos h]; decide
      · rw [if_neg h]; exact h
    · intro n hn
      rw [MakeHPA_Spec_MinReplicas] at hn
      cases hmin : pa.Spec.MinReplicas with
      | none => rw [hmin] at hn; exact absurd hn (by simp)
      | some k =>
        rw [hmin] at hn
        simp only [] at hn
        by_cases hk : k > 0
        · rw [if_pos hk] at hn
          have : k = n := Option.some.inj hn
          omega
        · rw [if_neg hk] at hn
          exact absurd hn (by simp)
  · intro m M hM hm
    refine ⟨samplePA m M "cpu" "50", rfl, rfl, ?_, ?_⟩
    · rw [MakeHPA_Spec_MinReplicas]
      cases m with
      | none => rfl
      | some k =>
        have hk : 1 ≤ k := hm k rfl
        show (if k > 0 then some k else none) = some k
        rw [if_pos (by omega)]
    · rw [MakeHPA_Spec_MaxReplicas]
      show (if M = 0 then MaxInt32 else M) = M
      rw [if_neg hM]

end podautoscaler
